import Mathlib

/-!
# Verification of `CowWriterV3` (fs_mgr/libsnapshot/libsnapshot_cow/writer_v3.cpp)

A shallow embedding of the v3 COW writer: the in-memory header, the write
protocol (`WriteOperation`) with its estimation mode, the operation emitters
(`EmitCopy`, `EmitRawBlocks`, `EmitXorBlocks`, `EmitZeroBlocks`), the
checkpoint mechanism (`EmitLabel`), `EmitSequenceData`, and the resumption
path (`OpenForAppend`).

Physical file I/O is modelled with an oracle `io : Nat → Bool` telling
whether the k-th positioned write/sync issued by the session succeeds; the
session state carries the counter `ioCount`.  A positioned write of the
operation table updates `opTable` (indexed by operation slot), a positioned
write of payload updates `dataFile` (indexed by byte offset); a failed write
is modelled as writing nothing.  The compressor is external and is modelled
as an optional pure function on byte lists.
-/

namespace CowV3

/-- Operation type tags (values of the `kCow*Op` constants are taken from the
format header, which is external to this file; only distinctness matters). -/
def kCowCopyOp : Nat := 1

def kCowReplaceOp : Nat := 2

def kCowZeroOp : Nat := 3

def kCowXorOp : Nat := 6

/-- Modelled from the spec: the fixed size in bytes of one binary operation
record (`sizeof(CowOperationV3)`); the format header defining it is not part
of this file's sources, so it is fixed here as an arbitrary positive constant. -/
def kOpSize : Nat := 14

/-- Modelled from the spec: `sizeof(ResumePoint)`, the fixed size of one
(label, operation-count) pair on disk. -/
def kResumePointSize : Nat := 16

/-- Modelled from the spec: size of the serialized header record
(`sizeof(CowHeaderV3)`). -/
def kHeaderSize : Nat := 96

/-- Modelled from the spec: the sequence-data table is a fixed region between
the resume-point table and the operation table; its fixed size. -/
def kSequenceTableSize : Nat := 1024

/-- Modelled from the spec: the fixed resume-point capacity installed by
`SetupHeaders` (`kNumResumePoints`). -/
def kNumResumePoints : Nat := 4

/-- One binary operation record (`CowOperationV3`): type tag, destination
block, type-dependent source field, payload length in bytes. -/
structure CowOperationV3 where
  type : Nat
  new_block : Nat
  source : Nat
  data_length : Nat
deriving DecidableEq

/-- The fields of the in-memory/on-disk header that the writer logic reads or
mutates. -/
structure CowHeaderV3 where
  block_size : Nat
  op_count : Nat
  op_count_max : Nat
  sequence_data_count : Nat
  resume_point_count : Nat
  resume_point_max : Nat
deriving DecidableEq

/-- A resume point: caller-chosen label paired with the committed operation
count snapshotted when the label was emitted. -/
structure ResumePoint where
  label : Nat
  op_index : Nat
deriving DecidableEq

/-- Modelled from the spec: payload-region start offset derived from header
fields only: header size + resume-point-table size + sequence-data-table size
+ operation-table capacity × record size (`GetDataOffset`). -/
def GetDataOffset (h : CowHeaderV3) : Nat :=
  kHeaderSize + h.resume_point_max * kResumePointSize + kSequenceTableSize +
    h.op_count_max * kOpSize

/-- Writer session state: header, payload cursor (`next_data_pos_`), resume
points, estimation flag, compression configuration, the I/O tick counter, and
the two persisted regions the claims inspect (operation table by slot index,
payload region by byte offset). -/
structure CowWriterV3 where
  header : CowHeaderV3
  next_data_pos : Nat
  resume_points : List ResumePoint
  estimating : Bool
  compressionNone : Bool
  compressor : Option (List Nat → List Nat)
  ioCount : Nat
  opTable : Nat → CowOperationV3
  dataFile : Nat → Nat

/-- Overwrite `len` consecutive operation-table slots starting at `start`. -/
def writeAtTable (t : Nat → CowOperationV3) (start : Nat) (ops : List CowOperationV3) :
    Nat → CowOperationV3 :=
  fun i => if h : start ≤ i ∧ i - start < ops.length then ops.get ⟨i - start, h.2⟩ else t i

/-- Overwrite payload-region bytes starting at byte offset `start`. -/
def writeAtData (f : Nat → Nat) (start : Nat) (bytes : List Nat) : Nat → Nat :=
  fun i => if h : start ≤ i ∧ i - start < bytes.length then bytes.get ⟨i - start, h.2⟩ else f i

/-- `CowWriterV3::WriteOperation(ops, data)`: in estimation mode advance
`op_count`, grow `op_count_max` (shifting the payload cursor by the added
table bytes) and advance the payload cursor by `data.size()`, touching no
storage; in real mode fail if the batch exceeds capacity, else write the
records at the table slot given by the current `op_count`, write the payload
(when non-empty) at the payload cursor, and commit both counters only after
both writes succeed. -/
def WriteOperation (io : Nat → Bool) (w : CowWriterV3) (ops : List CowOperationV3)
    (data : List Nat) : Bool × CowWriterV3 :=
  if w.estimating then
    if w.header.op_count_max < w.header.op_count + ops.length then
      (true, { w with
        header := { w.header with
          op_count := w.header.op_count + ops.length,
          op_count_max := w.header.op_count + ops.length },
        next_data_pos := w.next_data_pos +
          (w.header.op_count + ops.length - w.header.op_count_max) * kOpSize + data.length })
    else
      (true, { w with
        header := { w.header with op_count := w.header.op_count + ops.length },
        next_data_pos := w.next_data_pos + data.length })
  else if w.header.op_count_max < w.header.op_count + ops.length then
    (false, w)
  else if io w.ioCount = false then
    (false, { w with ioCount := w.ioCount + 1 })
  else
    if data.isEmpty then
      (true, { w with
        ioCount := w.ioCount + 1,
        opTable := writeAtTable w.opTable w.header.op_count ops,
        header := { w.header with op_count := w.header.op_count + ops.length } })
    else if io (w.ioCount + 1) = false then
      (false, { w with
        ioCount := w.ioCount + 2,
        opTable := writeAtTable w.opTable w.header.op_count ops })
    else
      (true, { w with
        ioCount := w.ioCount + 2,
        opTable := writeAtTable w.opTable w.header.op_count ops,
        dataFile := writeAtData w.dataFile w.next_data_pos data,
        header := { w.header with op_count := w.header.op_count + ops.length },
        next_data_pos := w.next_data_pos + data.length })

/-- `GetCowSize()`: the next free payload offset, i.e. the total file size if
the write ended now. -/
def GetCowSize (w : CowWriterV3) : Nat :=
  w.next_data_pos

/-- `EmitCopy`: one copy record per block, destination `new_block + i`,
source `old_block + i`, no payload. -/
def EmitCopy (io : Nat → Bool) (w : CowWriterV3) (new_block old_block num_blocks : Nat) :
    Bool × CowWriterV3 :=
  WriteOperation io w
    ((List.range num_blocks).map fun i =>
      { type := kCowCopyOp, new_block := new_block + i, source := old_block + i,
        data_length := 0 })
    []

/-- `EmitZeroBlocks`: one zero record per block, no source, no payload. -/
def EmitZeroBlocks (io : Nat → Bool) (w : CowWriterV3) (new_block_start num_blocks : Nat) :
    Bool × CowWriterV3 :=
  WriteOperation io w
    ((List.range num_blocks).map fun i =>
      { type := kCowZeroOp, new_block := new_block_start + i, source := 0, data_length := 0 })
    []

/-- The block of `data` starting at byte `bs * i`, as read by the compressed
per-block path. -/
def blockOf (data : List Nat) (bs i : Nat) : List Nat :=
  (data.drop (bs * i)).take bs

/-- One record of the uncompressed batch: full block length, source is the
XOR byte address for XOR ops and the payload offset of block `i` otherwise. -/
def uncompressedOp (ty new_block_start old_block offset ndp bs i : Nat) : CowOperationV3 :=
  { type := ty, new_block := new_block_start + i,
    source := if ty = kCowXorOp then (old_block + i) * bs + offset else ndp + bs * i,
    data_length := bs }

/-- The per-block compression decision of `EmitBlocks`: the payload length
recorded for block `i` is the compressed length when strictly smaller than
the block size, else the block size. -/
def cDlen (c : List Nat → List Nat) (data : List Nat) (bs i : Nat) : Nat :=
  if (c (blockOf data bs i)).length < bs then (c (blockOf data bs i)).length else bs

/-- The bytes the compressed path persists for block `i`: the compressed
bytes when strictly smaller than the block size, else the raw block
(stored uncompressed). -/
def cOut (c : List Nat → List Nat) (data : List Nat) (bs i : Nat) : List Nat :=
  if (c (blockOf data bs i)).length < bs then c (blockOf data bs i) else blockOf data bs i

/-- The compressed per-block loop of `EmitBlocks`: for each block index,
compress it, keep the compressed bytes only when strictly smaller than the
block size (`cDlen`/`cOut`), and push the single record plus payload through
`WriteOperation`; the record's source is the XOR byte address for XOR ops
and the current payload cursor otherwise; stop on the first failure. -/
def EmitBlocksLoop (io : Nat → Bool) (c : List Nat → List Nat) (ty : Nat)
    (new_block_start old_block offset : Nat) (data : List Nat) (bs : Nat) :
    List Nat → CowWriterV3 → Bool × CowWriterV3
  | [], w => (true, w)
  | i :: rest, w =>
    if (WriteOperation io w
        [{ type := ty, new_block := new_block_start + i,
           source := if ty = kCowXorOp then (old_block + i) * bs + offset else w.next_data_pos,
           data_length := cDlen c data bs i }] (cOut c data bs i)).1 = false then
      (false, (WriteOperation io w
        [{ type := ty, new_block := new_block_start + i,
           source := if ty = kCowXorOp then (old_block + i) * bs + offset else w.next_data_pos,
           data_length := cDlen c data bs i }] (cOut c data bs i)).2)
    else
      EmitBlocksLoop io c ty new_block_start old_block offset data bs rest
        (WriteOperation io w
          [{ type := ty, new_block := new_block_start + i,
             source := if ty = kCowXorOp then (old_block + i) * bs + offset else w.next_data_pos,
             data_length := cDlen c data bs i }] (cOut c data bs i)).2

/-- `CowWriterV3::EmitBlocks`: fail if compression is configured but the
compressor is absent; with compression "none" emit the whole batch as one
table+payload append (passing the full byte size, remainder included); with
compression, run the per-block loop and on failure roll `op_count` and the
payload cursor back to their values at entry. -/
def EmitBlocks (io : Nat → Bool) (w : CowWriterV3) (new_block_start : Nat) (data : List Nat)
    (old_block offset ty : Nat) : Bool × CowWriterV3 :=
  if w.compressionNone = false ∧ w.compressor.isNone = true then
    (false, w)
  else if w.compressionNone then
    WriteOperation io w
      ((List.range (data.length / w.header.block_size)).map
        (uncompressedOp ty new_block_start old_block offset w.next_data_pos
          w.header.block_size))
      data
  else
    if (EmitBlocksLoop io (w.compressor.getD fun b => b) ty new_block_start old_block
        offset data w.header.block_size
        (List.range (data.length / w.header.block_size)) w).1 = false then
      (false,
        { (EmitBlocksLoop io (w.compressor.getD fun b => b) ty new_block_start old_block
            offset data w.header.block_size
            (List.range (data.length / w.header.block_size)) w).2 with
          header := { (EmitBlocksLoop io (w.compressor.getD fun b => b) ty new_block_start
              old_block offset data w.header.block_size
              (List.range (data.length / w.header.block_size)) w).2.header with
            op_count := w.header.op_count },
          next_data_pos := w.next_data_pos })
    else
      EmitBlocksLoop io (w.compressor.getD fun b => b) ty new_block_start old_block
        offset data w.header.block_size
        (List.range (data.length / w.header.block_size)) w

/-- `EmitRawBlocks`: overwrite records via `EmitBlocks`. -/
def EmitRawBlocks (io : Nat → Bool) (w : CowWriterV3) (new_block_start : Nat)
    (data : List Nat) : Bool × CowWriterV3 :=
  EmitBlocks io w new_block_start data 0 0 kCowReplaceOp

/-- `EmitXorBlocks`: XOR-patch records via `EmitBlocks`. -/
def EmitXorBlocks (io : Nat → Bool) (w : CowWriterV3) (new_block_start : Nat)
    (data : List Nat) (old_block offset : Nat) : Bool × CowWriterV3 :=
  EmitBlocks io w new_block_start data old_block offset kCowXorOp

/-- The `while (resume_points_->size() > resume_point_max) erase(begin())`
loop: evict from the front until the list fits the bound. -/
def evictFront (max : Nat) : List ResumePoint → List ResumePoint
  | [] => []
  | p :: rest => if max < (p :: rest).length then evictFront max rest else p :: rest

/-- `Sync()`: one fsync, modelled as one I/O tick. -/
def Sync (io : Nat → Bool) (w : CowWriterV3) : Bool × CowWriterV3 :=
  (io w.ioCount, { w with ioCount := w.ioCount + 1 })

/-- `Finalize()`: rewrite the header at offset 0 (one I/O tick) and sync. -/
def Finalize (io : Nat → Bool) (w : CowWriterV3) : Bool × CowWriterV3 :=
  if io w.ioCount = false then (false, { w with ioCount := w.ioCount + 1 })
  else Sync io { w with ioCount := w.ioCount + 1 }

/-- `EmitLabel(label)`: drop every resume point with label ≥ the new label,
append (label, current op_count), bump the header's resume-point counter,
evict from the front while over capacity, persist the resume-point table
(one I/O tick), then finalize the header. -/
def EmitLabel (io : Nat → Bool) (w : CowWriterV3) (label : Nat) : Bool × CowWriterV3 :=
  let pts := evictFront w.header.resume_point_max
    ((w.resume_points.filter fun p => decide (p.label < label)) ++
      [{ label := label, op_index := w.header.op_count }])
  let w1 : CowWriterV3 := { w with
    resume_points := pts,
    header := { w.header with resume_point_count := w.header.resume_point_count + 1 } }
  if io w1.ioCount = false then (false, { w1 with ioCount := w1.ioCount + 1 })
  else Finalize io { w1 with ioCount := w1.ioCount + 1 }

/-- `EmitSequenceData(num_ops, data)`: set the header's sequence-data count,
then write the array at the sequence-table offset (one I/O tick).  Note the
count is set before the write is attempted. -/
def EmitSequenceData (io : Nat → Bool) (w : CowWriterV3) (num_ops : Nat) :
    Bool × CowWriterV3 :=
  let w1 : CowWriterV3 :=
    { w with header := { w.header with sequence_data_count := num_ops } }
  (io w1.ioCount, { w1 with ioCount := w1.ioCount + 1 })

/-- A freshly opened session (`OpenForWrite` succeeded): zeroed counters,
payload cursor at the payload-region start derived from the header, empty
resume-point list. -/
def freshWriter (estimating : Bool) (block_size op_count_max : Nat)
    (compressionNone : Bool) (compressor : Option (List Nat → List Nat)) : CowWriterV3 :=
  let h : CowHeaderV3 :=
    { block_size := block_size, op_count := 0, op_count_max := op_count_max,
      sequence_data_count := 0, resume_point_count := 0,
      resume_point_max := kNumResumePoints }
  { header := h, next_data_pos := GetDataOffset h, resume_points := [],
    estimating := estimating, compressionNone := compressionNone,
    compressor := compressor, ioCount := 0,
    opTable := fun _ => { type := 0, new_block := 0, source := 0, data_length := 0 },
    dataFile := fun _ => 0 }

/-- `OpenForAppend(label)` after the external parser succeeded.  The parser is
external to this file's sources; its output — the operations committed at or
before the resume label, and the resume points — is taken as input.  The
writer adopts the on-disk header, sets `op_count` to the number of recovered
operations, and recomputes the payload cursor by starting at the
payload-region start and adding each recovered operation's `data_length`. -/
def OpenForAppend (h : CowHeaderV3) (ops : List CowOperationV3)
    (rps : List ResumePoint) (compressionNone : Bool)
    (compressor : Option (List Nat → List Nat)) : CowWriterV3 :=
  { header := { h with op_count := ops.length },
    next_data_pos := ops.foldl (fun acc op => acc + op.data_length) (GetDataOffset h),
    resume_points := rps, estimating := false, compressionNone := compressionNone,
    compressor := compressor, ioCount := 0,
    opTable := fun _ => { type := 0, new_block := 0, source := 0, data_length := 0 },
    dataFile := fun _ => 0 }

/-- One high-level emit request, for replaying a whole session. -/
inductive EmitCall where
  | copy (new_block old_block num_blocks : Nat)
  | raw (new_block : Nat) (data : List Nat)
  | xor (new_block : Nat) (data : List Nat) (old_block offset : Nat)
  | zero (new_block num_blocks : Nat)
  | label (l : Nat)
  | seq (n : Nat)

/-- Dispatch one emit request to the writer. -/
def runCall (io : Nat → Bool) (w : CowWriterV3) : EmitCall → Bool × CowWriterV3
  | .copy nb ob n => EmitCopy io w nb ob n
  | .raw nb data => EmitRawBlocks io w nb data
  | .xor nb data ob off => EmitXorBlocks io w nb data ob off
  | .zero nb n => EmitZeroBlocks io w nb n
  | .label l => EmitLabel io w l
  | .seq n => EmitSequenceData io w n

/-- Replay a whole sequence of emit requests on one session (the session
object persists across calls whether or not each call succeeds). -/
def runCalls (io : Nat → Bool) (w : CowWriterV3) : List EmitCall → CowWriterV3
  | [] => w
  | c :: cs => runCalls io (runCall io w c).2 cs

/-- Coupling between an estimation-mode session `we` and a real-mode session
`wr` replaying the same calls: same committed count and compression
configuration, the real session's fixed capacity `R` dominates the estimation
session's current (growing) capacity, and the real payload cursor leads the
estimation cursor by exactly the table bytes the estimation session has not
yet accounted for. -/
def SyncInv (R : Nat) (we wr : CowWriterV3) : Prop :=
  we.estimating = true ∧
  wr.estimating = false ∧
  we.header.op_count = wr.header.op_count ∧
  we.header.op_count ≤ we.header.op_count_max ∧
  we.header.op_count_max ≤ R ∧
  wr.header.op_count_max = R ∧
  wr.next_data_pos = we.next_data_pos + (R - we.header.op_count_max) * kOpSize ∧
  we.header.block_size = wr.header.block_size ∧
  we.compressionNone = wr.compressionNone ∧
  we.compressor = wr.compressor

/-- Estimation-mode internal invariant: the committed count never exceeds the
(growing) capacity. -/
def EstInv (w : CowWriterV3) : Prop :=
  w.estimating = true ∧ w.header.op_count ≤ w.header.op_count_max

/-- The compressor used by the C3/C7 witnesses: shrinks the first block of
the witness payload, and returns an incompressible result for every other
block. -/
def witnessCompressor : List Nat → List Nat :=
  fun b => if b = [1, 2] then [9] else [7, 7, 8]

/-- I/O oracle for the C3 witness: the third physical write (the operation
record of the second block) fails. -/
def witnessFailIO : Nat → Bool :=
  fun k => decide (k ≠ 2)

/-- A fresh real-mode session with block size 2 and no compression, used by
the C10 witness. -/
def rawWitnessWriter : CowWriterV3 :=
  freshWriter false 2 10 true none

/-- A fresh real-mode compressed session with block size 2, used by the C7
witness. -/
def compressedWitnessWriter : CowWriterV3 :=
  freshWriter false 2 10 false (some witnessCompressor)

/-- A concrete session with a full resume-point list of increasing labels,
used to witness the eviction behavior. -/
def labelWitnessWriter : CowWriterV3 :=
  { header := { block_size := 4096, op_count := 7, op_count_max := 10, sequence_data_count := 0, resume_point_count := 4, resume_point_max := 4 },
    next_data_pos := 0,
    resume_points := [{ label := 1, op_index := 1 }, { label := 2, op_index := 2 }, { label := 3, op_index := 4 }, { label := 4, op_index := 6 }],
    estimating := false, compressionNone := true, compressor := none, ioCount := 0,
    opTable := fun _ => { type := 0, new_block := 0, source := 0, data_length := 0 },
    dataFile := fun _ => 0 }

/-! ## General lemmas about the write protocol -/

/-- In estimation mode `WriteOperation` always succeeds; the committed count
advances by the batch size, the capacity grows to cover it, and the payload
cursor advances by the added table bytes plus the payload size. -/
theorem WriteOperation_est (io : Nat → Bool) (w : CowWriterV3) (ops : List CowOperationV3)
    (data : List Nat) (hest : w.estimating = true) :
    WriteOperation io w ops data = (true, { w with
      header := { w.header with
        op_count := w.header.op_count + ops.length,
        op_count_max := Nat.max w.header.op_count_max (w.header.op_count + ops.length) },
      next_data_pos := w.next_data_pos +
        (w.header.op_count + ops.length - w.header.op_count_max) * kOpSize + data.length }) := by
  rw [WriteOperation, if_pos hest]
  by_cases h : w.header.op_count_max < w.header.op_count + ops.length
  · have hm : Nat.max w.header.op_count_max (w.header.op_count + ops.length) =
      w.header.op_count + ops.length := Nat.max_eq_right (Nat.le_of_lt h)
    rw [if_pos h, hm]
  · have hm : Nat.max w.header.op_count_max (w.header.op_count + ops.length) =
      w.header.op_count_max := Nat.max_eq_left (Nat.le_of_not_lt h)
    rw [if_neg h, hm, Nat.sub_eq_zero_of_le (Nat.le_of_not_lt h), Nat.zero_mul, Nat.add_zero]

/-- In real mode a batch that fits the capacity and whose physical writes all
succeed commits: records land in the table at the current committed count,
payload lands at the payload cursor, and both counters advance. -/
theorem WriteOperation_real (io : Nat → Bool) (w : CowWriterV3) (ops : List CowOperationV3)
    (data : List Nat) (hest : w.estimating = false)
    (hcap : w.header.op_count + ops.length ≤ w.header.op_count_max)
    (hio : ∀ k, io k = true) :
    WriteOperation io w ops data = (true, { w with
      ioCount := w.ioCount + (if data = [] then 1 else 2),
      opTable := writeAtTable w.opTable w.header.op_count ops,
      dataFile := if data = [] then w.dataFile else writeAtData w.dataFile w.next_data_pos data,
      header := { w.header with op_count := w.header.op_count + ops.length },
      next_data_pos := w.next_data_pos + data.length }) := by
  rw [WriteOperation, if_neg (by simp [hest]), if_neg (Nat.not_lt.mpr hcap),
    if_neg (by simp [hio])]
  by_cases hd : data = []
  · rw [if_pos (by simp [hd]), if_pos hd, if_pos hd]
    subst hd
    simp
  · rw [if_neg (by simp [hd]), if_neg (by simp [hio]), if_neg hd, if_neg hd]

/-- In real mode a successful `WriteOperation` can only have taken the
committing branches; this inverts success into the explicit post-state. -/
theorem WriteOperation_real_of_success (io : Nat → Bool) (w : CowWriterV3)
    (ops : List CowOperationV3) (data : List Nat) (hest : w.estimating = false)
    (h1 : (WriteOperation io w ops data).1 = true) :
    WriteOperation io w ops data = (true, { w with
      ioCount := w.ioCount + (if data = [] then 1 else 2),
      opTable := writeAtTable w.opTable w.header.op_count ops,
      dataFile := if data = [] then w.dataFile else writeAtData w.dataFile w.next_data_pos data,
      header := { w.header with op_count := w.header.op_count + ops.length },
      next_data_pos := w.next_data_pos + data.length }) := by
  rw [WriteOperation, if_neg (by simp [hest])] at h1 ⊢
  by_cases hcap : w.header.op_count_max < w.header.op_count + ops.length
  · rw [if_pos hcap] at h1; simp at h1
  · rw [if_neg hcap] at h1 ⊢
    by_cases hio1 : io w.ioCount = false
    · rw [if_pos hio1] at h1; simp at h1
    · rw [if_neg hio1] at h1 ⊢
      by_cases hd : data = []
      · rw [if_pos (by simp [hd]), if_pos hd, if_pos hd]
        subst hd
        simp
      · rw [if_neg (by simp [hd])] at h1 ⊢
        by_cases hio2 : io (w.ioCount + 1) = false
        · rw [if_pos hio2] at h1; simp at h1
        · rw [if_neg hio2, if_neg hd, if_neg hd]

/-! ## Estimation / real mode synchronization (C1) -/

/-- One synchronized `WriteOperation` step: batches of equal record count and
equal payload size preserve the coupling, and the real write succeeds. -/
theorem WriteOperation_sync (R : Nat) (ioe ior : Nat → Bool) (we wr : CowWriterV3)
    (opsE opsR : List CowOperationV3) (dataE dataR : List Nat)
    (hlen : opsE.length = opsR.length) (hdlen : dataE.length = dataR.length)
    (hinv : SyncInv R we wr) (hcap : we.header.op_count + opsE.length ≤ R)
    (hior : ∀ k, ior k = true) :
    (WriteOperation ior wr opsR dataR).1 = true ∧
    SyncInv R (WriteOperation ioe we opsE dataE).2 (WriteOperation ior wr opsR dataR).2 := by
  obtain ⟨h1, h2, h3, h4, h5, h6, h7, h8, h9, h10⟩ := hinv
  have hcapR : wr.header.op_count + opsR.length ≤ wr.header.op_count_max := by
    rw [h6, ← hlen, ← h3]
    exact hcap
  rw [WriteOperation_est ioe we opsE dataE h1, WriteOperation_real ior wr opsR dataR h2
    hcapR hior]
  refine ⟨rfl, h1, h2, ?_, ?_, ?_, h6, ?_, h8, h9, h10⟩
  · show we.header.op_count + opsE.length = wr.header.op_count + opsR.length
    omega
  · show we.header.op_count + opsE.length ≤
      Nat.max we.header.op_count_max (we.header.op_count + opsE.length)
    exact Nat.le_max_right _ _
  · show Nat.max we.header.op_count_max (we.header.op_count + opsE.length) ≤ R
    exact Nat.max_le.mpr ⟨h5, hcap⟩
  · show wr.next_data_pos + dataR.length =
      we.next_data_pos +
          (we.header.op_count + opsE.length - we.header.op_count_max) * kOpSize +
          dataE.length +
        (R - Nat.max we.header.op_count_max (we.header.op_count + opsE.length)) * kOpSize
    simp only [kOpSize] at h7 ⊢
    rcases Nat.le_total (we.header.op_count + opsE.length) we.header.op_count_max with
      hle | hge
    · have hm : Nat.max we.header.op_count_max (we.header.op_count + opsE.length) =
        we.header.op_count_max := Nat.max_eq_left hle
      rw [hm]
      omega
    · have hm : Nat.max we.header.op_count_max (we.header.op_count + opsE.length) =
        we.header.op_count + opsE.length := Nat.max_eq_right hge
      rw [hm]
      omega

/-- An estimation-mode write preserves the invariant and only grows the
capacity. -/
theorem EstInv_WriteOperation (io : Nat → Bool) (w : CowWriterV3)
    (ops : List CowOperationV3) (data : List Nat) (h : EstInv w) :
    (WriteOperation io w ops data).1 = true ∧
    EstInv (WriteOperation io w ops data).2 ∧
    w.header.op_count_max ≤ (WriteOperation io w ops data).2.header.op_count_max := by
  rw [WriteOperation_est io w ops data h.1]
  exact ⟨rfl, ⟨h.1, Nat.le_max_right _ _⟩, Nat.le_max_left _ _⟩

/-! ## Lemmas about resume points -/

/-- The front-eviction loop is exactly dropping down to the bound. -/
theorem evictFront_eq_drop (m : Nat) (l : List ResumePoint) :
    evictFront m l = l.drop (l.length - m) := by
  induction l with
  | nil => simp [evictFront]
  | cons p rest ih =>
    rw [evictFront]
    by_cases h : m < (p :: rest).length
    · rw [if_pos h, ih]
      have h2 : (p :: rest).length - m = (rest.length - m) + 1 := by
        simp only [List.length_cons] at h ⊢; omega
      rw [h2, List.drop_succ_cons]
    · rw [if_neg h, Nat.sub_eq_zero_of_le (Nat.le_of_not_lt h), List.drop_zero]

/-- Eviction always leaves at most the bound. -/
theorem evictFront_length_le (m : Nat) (l : List ResumePoint) :
    (evictFront m l).length ≤ m := by
  rw [evictFront_eq_drop, List.length_drop]
  omega

/-- A list already within the bound is left alone. -/
theorem evictFront_of_le (m : Nat) (l : List ResumePoint) (h : l.length ≤ m) :
    evictFront m l = l := by
  rw [evictFront_eq_drop, Nat.sub_eq_zero_of_le h, List.drop_zero]

/-- A list one over the bound loses exactly its head. -/
theorem evictFront_of_succ (m : Nat) (l : List ResumePoint) (h : l.length = m + 1) :
    evictFront m l = l.tail := by
  rw [evictFront_eq_drop, h, Nat.add_sub_cancel_left, List.drop_one]

/-- `EmitLabel` touches only the resume points, the header's resume-point
counter, and the I/O tick counter. -/
theorem EmitLabel_state (io : Nat → Bool) (w : CowWriterV3) (label : Nat) :
    ∃ k, (EmitLabel io w label).2 = { w with
      resume_points := evictFront w.header.resume_point_max
        ((w.resume_points.filter fun p => decide (p.label < label)) ++
          [{ label := label, op_index := w.header.op_count }]),
      header := { w.header with resume_point_count := w.header.resume_point_count + 1 },
      ioCount := k } := by
  rw [EmitLabel]
  by_cases h1 : io (w.ioCount) = false
  · exact ⟨w.ioCount + 1, by rw [if_pos h1]⟩
  · rw [if_neg h1, Finalize]
    by_cases h2 : io (w.ioCount + 1) = false
    · exact ⟨w.ioCount + 1 + 1, by rw [if_pos h2]⟩
    · exact ⟨w.ioCount + 1 + 1 + 1, by rw [if_neg h2, Sync]⟩

/-- Filtering an already-filtered suffix with the same predicate keeps it,
and drops a trailing element the predicate rejects. -/
theorem filter_drop_append_filter (F : List ResumePoint) (x : ResumePoint)
    (p : ResumePoint → Bool) (hF : ∀ q ∈ F, p q = true) (hx : p x = false) (d : Nat) :
    ((F ++ [x]).drop d).filter p = F.drop d := by
  rw [List.drop_append_eq_append_drop, List.filter_append]
  have h1 : (F.drop d).filter p = F.drop d :=
    List.filter_eq_self.mpr fun a ha => hF a (List.drop_subset d F ha)
  have h2 : ([x].drop (d - F.length)).filter p = [] := by
    rcases Nat.eq_zero_or_pos (d - F.length) with h | h
    · rw [h, List.drop_zero]
      simp [List.filter_singleton, hx]
    · rw [List.drop_eq_nil_of_le (by simp only [List.length_singleton]; omega)]
      rfl
  rw [h1, h2, List.append_nil]

/-- Evicting with a zero bound empties the list. -/
theorem evictFront_zero (l : List ResumePoint) : evictFront 0 l = [] := by
  rw [evictFront_eq_drop, Nat.sub_zero, List.drop_length]

/-- Pruning then re-appending the same rejected element is stable under
front-eviction: the list is unchanged. -/
theorem evictFront_filter_append_idem (M : Nat) (F : List ResumePoint) (x : ResumePoint)
    (p : ResumePoint → Bool) (hF : ∀ q ∈ F, p q = true) (hx : p x = false) :
    evictFront M ((evictFront M (F ++ [x])).filter p ++ [x]) = evictFront M (F ++ [x]) := by
  rcases Nat.eq_zero_or_pos M with hM0 | hM1
  · rw [hM0, evictFront_zero, evictFront_zero]
  by_cases hcase : F.length + 1 ≤ M
  · have h1 : evictFront M (F ++ [x]) = F ++ [x] :=
      evictFront_of_le M (F ++ [x]) (by simpa using hcase)
    rw [h1, List.filter_append]
    rw [List.filter_eq_self.mpr hF, List.filter_singleton, hx]
    simpa using h1
  · have e1 : (F ++ [x]).length - M = F.length + 1 - M := by simp
    have e2 : F.length + 1 - M - F.length = 0 := by omega
    have h1 : evictFront M (F ++ [x]) = F.drop (F.length + 1 - M) ++ [x] := by
      rw [evictFront_eq_drop, e1, List.drop_append_eq_append_drop, e2, List.drop_zero]
    rw [h1, List.filter_append]
    rw [List.filter_eq_self.mpr fun a ha => hF a (List.drop_subset _ F ha),
      List.filter_singleton, hx]
    have h2 : (F.drop (F.length + 1 - M) ++ [x]).length ≤ M := by
      simp only [List.length_append, List.length_singleton, List.length_drop]
      omega
    have h3 := evictFront_of_le M _ h2
    simpa using h3

/-- The resume-point list after `EmitLabel`. -/
theorem EmitLabel_resume_points (io : Nat → Bool) (w : CowWriterV3) (label : Nat) :
    ((EmitLabel io w label).2).resume_points =
      evictFront w.header.resume_point_max
        ((w.resume_points.filter fun p => decide (p.label < label)) ++
          [{ label := label, op_index := w.header.op_count }]) := by
  obtain ⟨k, hk⟩ := EmitLabel_state io w label
  rw [hk]

/-- `EmitLabel` does not change the committed operation count. -/
theorem EmitLabel_op_count (io : Nat → Bool) (w : CowWriterV3) (label : Nat) :
    ((EmitLabel io w label).2).header.op_count = w.header.op_count := by
  obtain ⟨k, hk⟩ := EmitLabel_state io w label
  rw [hk]

/-- `EmitLabel` does not change the resume-point capacity. -/
theorem EmitLabel_resume_point_max (io : Nat → Bool) (w : CowWriterV3) (label : Nat) :
    ((EmitLabel io w label).2).header.resume_point_max = w.header.resume_point_max := by
  obtain ⟨k, hk⟩ := EmitLabel_state io w label
  rw [hk]

/-- Re-emitting the same label yields the same resume-point list: the pruning
rule removes exactly the entry the first call appended. -/
theorem emitLabel_twice_points (io io' : Nat → Bool) (w : CowWriterV3) (L : Nat) :
    ((EmitLabel io' (EmitLabel io w L).2 L).2).resume_points =
      ((EmitLabel io w L).2).resume_points := by
  rw [EmitLabel_resume_points io' (EmitLabel io w L).2 L, EmitLabel_op_count,
    EmitLabel_resume_point_max, EmitLabel_resume_points io w L]
  exact evictFront_filter_append_idem w.header.resume_point_max
    (w.resume_points.filter fun p => decide (p.label < L))
    { label := L, op_index := w.header.op_count } (fun q => decide (q.label < L))
    (fun q hq => (List.mem_filter.mp hq).2) (by simp)

/-- Estimation-mode invariant through the compressed per-block loop, which
also always succeeds and only grows the capacity. -/
theorem EstInv_EmitBlocksLoop (io : Nat → Bool) (c : List Nat → List Nat) (ty : Nat)
    (s o off : Nat) (data : List Nat) (bs : Nat) :
    ∀ (l : List Nat) (w : CowWriterV3), EstInv w →
      (EmitBlocksLoop io c ty s o off data bs l w).1 = true ∧
      EstInv (EmitBlocksLoop io c ty s o off data bs l w).2 ∧
      w.header.op_count_max ≤
        (EmitBlocksLoop io c ty s o off data bs l w).2.header.op_count_max := by
  intro l
  induction l with
  | nil =>
    intro w h
    rw [EmitBlocksLoop]
    exact ⟨rfl, h, Nat.le_refl _⟩
  | cons i rest ih =>
    intro w h
    rw [EmitBlocksLoop]
    have hcond : ¬((WriteOperation io w
        [{ type := ty, new_block := s + i,
           source := if ty = kCowXorOp then (o + i) * bs + off else w.next_data_pos,
           data_length := cDlen c data bs i }] (cOut c data bs i)).1 = false) := by
      rw [WriteOperation_est io w _ _ h.1]
      simp
    rw [if_neg hcond]
    obtain ⟨_, hE, hle⟩ := EstInv_WriteOperation io w
      [{ type := ty, new_block := s + i,
         source := if ty = kCowXorOp then (o + i) * bs + off else w.next_data_pos,
         data_length := cDlen c data bs i }] (cOut c data bs i) h
    obtain ⟨hs, hE2, hle2⟩ := ih _ hE
    exact ⟨hs, hE2, Nat.le_trans hle hle2⟩

/-- Estimation-mode invariant through `EmitBlocks`. -/
theorem EstInv_EmitBlocks (io : Nat → Bool) (w : CowWriterV3) (s : Nat) (data : List Nat)
    (o off ty : Nat) (h : EstInv w) :
    EstInv (EmitBlocks io w s data o off ty).2 ∧
    w.header.op_count_max ≤ (EmitBlocks io w s data o off ty).2.header.op_count_max := by
  rw [EmitBlocks]
  by_cases hg : w.compressionNone = false ∧ w.compressor.isNone = true
  · rw [if_pos hg]
    exact ⟨h, Nat.le_refl _⟩
  rw [if_neg hg]
  by_cases hcn : w.compressionNone = true
  · rw [if_pos hcn]
    obtain ⟨_, hE, hle⟩ := EstInv_WriteOperation io w
      ((List.range (data.length / w.header.block_size)).map
        (uncompressedOp ty s o off w.next_data_pos w.header.block_size)) data h
    exact ⟨hE, hle⟩
  · rw [if_neg hcn]
    obtain ⟨hs, hE, hle⟩ := EstInv_EmitBlocksLoop io (w.compressor.getD fun b => b) ty s o
      off data w.header.block_size (List.range (data.length / w.header.block_size)) w h
    rw [if_neg (by simp [hs])]
    exact ⟨hE, hle⟩

/-- `EmitLabel` leaves the estimation invariant and the capacity unchanged. -/
theorem EstInv_EmitLabel (io : Nat → Bool) (w : CowWriterV3) (label : Nat) (h : EstInv w) :
    EstInv (EmitLabel io w label).2 ∧
    w.header.op_count_max ≤ (EmitLabel io w label).2.header.op_count_max := by
  obtain ⟨k, hk⟩ := EmitLabel_state io w label
  rw [hk]
  exact ⟨⟨h.1, h.2⟩, Nat.le_refl _⟩

/-- `EmitSequenceData` leaves the estimation invariant and the capacity
unchanged. -/
theorem EstInv_EmitSequenceData (io : Nat → Bool) (w : CowWriterV3) (n : Nat)
    (h : EstInv w) :
    EstInv (EmitSequenceData io w n).2 ∧
    w.header.op_count_max ≤ (EmitSequenceData io w n).2.header.op_count_max := by
  rw [EmitSequenceData]
  exact ⟨⟨h.1, h.2⟩, Nat.le_refl _⟩

/-- Estimation-mode invariant through any single emit request; the capacity
only grows. -/
theorem EstInv_runCall (io : Nat → Bool) (w : CowWriterV3) (cl : EmitCall) (h : EstInv w) :
    EstInv (runCall io w cl).2 ∧
    w.header.op_count_max ≤ (runCall io w cl).2.header.op_count_max := by
  cases cl with
  | copy nb ob n =>
    obtain ⟨_, hE, hle⟩ := EstInv_WriteOperation io w
      ((List.range n).map fun i =>
        { type := kCowCopyOp, new_block := nb + i, source := ob + i, data_length := 0 })
      [] h
    exact ⟨hE, hle⟩
  | raw nb data => exact EstInv_EmitBlocks io w nb data 0 0 kCowReplaceOp h
  | xor nb data ob off => exact EstInv_EmitBlocks io w nb data ob off kCowXorOp h
  | zero nb n =>
    obtain ⟨_, hE, hle⟩ := EstInv_WriteOperation io w
      ((List.range n).map fun i =>
        { type := kCowZeroOp, new_block := nb + i, source := 0, data_length := 0 })
      [] h
    exact ⟨hE, hle⟩
  | label l => exact EstInv_EmitLabel io w l h
  | seq n => exact EstInv_EmitSequenceData io w n h

/-- Estimation-mode invariant through a whole replay; the capacity only
grows. -/
theorem EstInv_runCalls (io : Nat → Bool) :
    ∀ (cs : List EmitCall) (w : CowWriterV3), EstInv w →
      EstInv (runCalls io w cs) ∧
      w.header.op_count_max ≤ (runCalls io w cs).header.op_count_max := by
  intro cs
  induction cs with
  | nil =>
    intro w h
    exact ⟨h, Nat.le_refl _⟩
  | cons cl cs ih =>
    intro w h
    obtain ⟨hE, hle⟩ := EstInv_runCall io w cl h
    obtain ⟨hE2, hle2⟩ := ih _ hE
    exact ⟨hE2, Nat.le_trans hle hle2⟩

/-- `EmitLabel` preserves the estimation/real coupling (it touches only
resume points, the resume-point counter and the I/O counter). -/
theorem SyncInv_EmitLabel (R : Nat) (ioe ior : Nat → Bool) (we wr : CowWriterV3) (L : Nat)
    (hinv : SyncInv R we wr) :
    SyncInv R (EmitLabel ioe we L).2 (EmitLabel ior wr L).2 := by
  obtain ⟨k1, hk1⟩ := EmitLabel_state ioe we L
  obtain ⟨k2, hk2⟩ := EmitLabel_state ior wr L
  rw [hk1, hk2]
  obtain ⟨h1, h2, h3, h4, h5, h6, h7, h8, h9, h10⟩ := hinv
  exact ⟨h1, h2, h3, h4, h5, h6, h7, h8, h9, h10⟩

/-- `EmitSequenceData` preserves the estimation/real coupling. -/
theorem SyncInv_EmitSequenceData (R : Nat) (ioe ior : Nat → Bool) (we wr : CowWriterV3)
    (n : Nat) (hinv : SyncInv R we wr) :
    SyncInv R (EmitSequenceData ioe we n).2 (EmitSequenceData ior wr n).2 := by
  rw [EmitSequenceData, EmitSequenceData]
  obtain ⟨h1, h2, h3, h4, h5, h6, h7, h8, h9, h10⟩ := hinv
  exact ⟨h1, h2, h3, h4, h5, h6, h7, h8, h9, h10⟩

/-- The compressed per-block loop preserves the estimation/real coupling when
the estimation run's final capacity stays within the real capacity; the real
loop succeeds. -/
theorem SyncInv_EmitBlocksLoop (R : Nat) (ioe ior : Nat → Bool) (c : List Nat → List Nat)
    (ty : Nat) (s o off : Nat) (data : List Nat) (bs : Nat) (hior : ∀ k, ior k = true) :
    ∀ (l : List Nat) (we wr : CowWriterV3), SyncInv R we wr →
      (EmitBlocksLoop ioe c ty s o off data bs l we).2.header.op_count_max ≤ R →
      (EmitBlocksLoop ior c ty s o off data bs l wr).1 = true ∧
      SyncInv R (EmitBlocksLoop ioe c ty s o off data bs l we).2
        (EmitBlocksLoop ior c ty s o off data bs l wr).2 := by
  intro l
  induction l with
  | nil =>
    intro we wr hinv hmax
    rw [EmitBlocksLoop, EmitBlocksLoop]
    exact ⟨rfl, hinv⟩
  | cons i rest ih =>
    intro we wr hinv hmax
    rw [EmitBlocksLoop] at hmax
    rw [EmitBlocksLoop, EmitBlocksLoop]
    have hcondE : ¬((WriteOperation ioe we
        [{ type := ty, new_block := s + i,
           source := if ty = kCowXorOp then (o + i) * bs + off else we.next_data_pos,
           data_length := cDlen c data bs i }] (cOut c data bs i)).1 = false) := by
      rw [WriteOperation_est ioe we _ _ hinv.1]
      simp
    rw [if_neg hcondE] at hmax ⊢
    have hstep := EstInv_WriteOperation ioe we
      [{ type := ty, new_block := s + i,
         source := if ty = kCowXorOp then (o + i) * bs + off else we.next_data_pos,
         data_length := cDlen c data bs i }] (cOut c data bs i) ⟨hinv.1, hinv.2.2.2.1⟩
    have hloopE := EstInv_EmitBlocksLoop ioe c ty s o off data bs rest
      (WriteOperation ioe we
        [{ type := ty, new_block := s + i,
           source := if ty = kCowXorOp then (o + i) * bs + off else we.next_data_pos,
           data_length := cDlen c data bs i }] (cOut c data bs i)).2 hstep.2.1
    have hcap1 : we.header.op_count + 1 ≤ (WriteOperation ioe we
        [{ type := ty, new_block := s + i,
           source := if ty = kCowXorOp then (o + i) * bs + off else we.next_data_pos,
           data_length := cDlen c data bs i }] (cOut c data bs i)).2.header.op_count_max := by
      rw [WriteOperation_est ioe we _ _ hinv.1]
      show we.header.op_count + 1 ≤
        Nat.max we.header.op_count_max (we.header.op_count + 1)
      exact Nat.le_max_right _ _
    have hcap : we.header.op_count + 1 ≤ R :=
      Nat.le_trans hcap1 (Nat.le_trans hloopE.2.2 hmax)
    have hsync := WriteOperation_sync R ioe ior we wr
      [{ type := ty, new_block := s + i,
         source := if ty = kCowXorOp then (o + i) * bs + off else we.next_data_pos,
         data_length := cDlen c data bs i }]
      [{ type := ty, new_block := s + i,
         source := if ty = kCowXorOp then (o + i) * bs + off else wr.next_data_pos,
         data_length := cDlen c data bs i }]
      (cOut c data bs i) (cOut c data bs i) rfl rfl hinv
      (by simpa using hcap) hior
    rw [if_neg (by simp [hsync.1])]
    exact ih _ _ hsync.2 hmax

/-- `EmitBlocks` preserves the estimation/real coupling when the estimation
run's final capacity stays within the real capacity. -/
theorem SyncInv_EmitBlocks (R : Nat) (ioe ior : Nat → Bool) (we wr : CowWriterV3)
    (s : Nat) (data : List Nat) (o off ty : Nat) (hior : ∀ k, ior k = true)
    (hinv : SyncInv R we wr)
    (hmax : (EmitBlocks ioe we s data o off ty).2.header.op_count_max ≤ R) :
    SyncInv R (EmitBlocks ioe we s data o off ty).2 (EmitBlocks ior wr s data o off ty).2 := by
  obtain ⟨h1, h2, h3, h4, h5, h6, h7, h8, h9, h10⟩ := id hinv
  rw [EmitBlocks] at hmax
  rw [EmitBlocks, EmitBlocks]
  by_cases hg : we.compressionNone = false ∧ we.compressor.isNone = true
  · have hgr : wr.compressionNone = false ∧ wr.compressor.isNone = true := by
      rw [← h9, ← h10]
      exact hg
    rw [if_pos hg]
    rw [if_pos hgr]
    exact hinv
  · have hgr : ¬(wr.compressionNone = false ∧ wr.compressor.isNone = true) := by
      rw [← h9, ← h10]
      exact hg
    rw [if_neg hg] at hmax
    rw [if_neg hg, if_neg hgr]
    by_cases hcn : we.compressionNone = true
    · have hcnr : wr.compressionNone = true := by
        rw [← h9]
        exact hcn
      rw [if_pos hcn] at hmax
      rw [if_pos hcn, if_pos hcnr]
      have hlen : ((List.range (data.length / we.header.block_size)).map
          (uncompressedOp ty s o off we.next_data_pos we.header.block_size)).length =
          ((List.range (data.length / wr.header.block_size)).map
            (uncompressedOp ty s o off wr.next_data_pos wr.header.block_size)).length := by
        rw [List.length_map, List.length_range, List.length_map, List.length_range, h8]
      have hcap : we.header.op_count +
          ((List.range (data.length / we.header.block_size)).map
            (uncompressedOp ty s o off we.next_data_pos we.header.block_size)).length ≤
          R := by
        rw [WriteOperation_est ioe we _ data h1] at hmax
        have h' : Nat.max we.header.op_count_max (we.header.op_count +
            ((List.range (data.length / we.header.block_size)).map
              (uncompressedOp ty s o off we.next_data_pos
                we.header.block_size)).length) ≤ R := hmax
        exact Nat.le_trans (Nat.le_max_right _ _) h'
      exact (WriteOperation_sync R ioe ior we wr _ _ data data hlen rfl hinv hcap hior).2
    · have hcnr : ¬(wr.compressionNone = true) := by
        rw [← h9]
        exact hcn
      rw [if_neg hcn] at hmax
      rw [if_neg hcn, if_neg hcnr]
      have hcc : (wr.compressor.getD fun b => b) = (we.compressor.getD fun b => b) := by
        rw [h10]
      rw [hcc, ← h8]
      obtain ⟨hsE, hEE, hleE⟩ := EstInv_EmitBlocksLoop ioe
        (we.compressor.getD fun b => b) ty s o off data we.header.block_size
        (List.range (data.length / we.header.block_size)) we ⟨h1, h4⟩
      rw [if_neg (by simp [hsE])] at hmax ⊢
      obtain ⟨hsR, hsync⟩ := SyncInv_EmitBlocksLoop R ioe ior
        (we.compressor.getD fun b => b) ty s o off data we.header.block_size hior
        (List.range (data.length / we.header.block_size)) we wr hinv hmax
      rw [if_neg (by simp [hsR])]
      exact hsync

/-- Any single emit request preserves the estimation/real coupling when the
estimation session's capacity after the call stays within the real
capacity. -/
theorem SyncInv_runCall (R : Nat) (ioe ior : Nat → Bool) (we wr : CowWriterV3)
    (cl : EmitCall) (hior : ∀ k, ior k = true) (hinv : SyncInv R we wr)
    (hmax : (runCall ioe we cl).2.header.op_count_max ≤ R) :
    SyncInv R (runCall ioe we cl).2 (runCall ior wr cl).2 := by
  cases cl with
  | copy nb ob n =>
    have hmax' : (WriteOperation ioe we ((List.range n).map fun i =>
        { type := kCowCopyOp, new_block := nb + i, source := ob + i, data_length := 0 })
        []).2.header.op_count_max ≤ R := hmax
    rw [WriteOperation_est ioe we _ [] hinv.1] at hmax'
    have h' : Nat.max we.header.op_count_max (we.header.op_count +
        ((List.range n).map fun i =>
          ({ type := kCowCopyOp, new_block := nb + i, source := ob + i,
             data_length := 0 } : CowOperationV3)).length) ≤ R := hmax'
    exact (WriteOperation_sync R ioe ior we wr _ _ [] [] rfl rfl hinv
      (Nat.le_trans (Nat.le_max_right _ _) h') hior).2
  | raw nb data =>
    exact SyncInv_EmitBlocks R ioe ior we wr nb data 0 0 kCowReplaceOp hior hinv hmax
  | xor nb data ob off =>
    exact SyncInv_EmitBlocks R ioe ior we wr nb data ob off kCowXorOp hior hinv hmax
  | zero nb n =>
    have hmax' : (WriteOperation ioe we ((List.range n).map fun i =>
        { type := kCowZeroOp, new_block := nb + i, source := 0, data_length := 0 })
        []).2.header.op_count_max ≤ R := hmax
    rw [WriteOperation_est ioe we _ [] hinv.1] at hmax'
    have h' : Nat.max we.header.op_count_max (we.header.op_count +
        ((List.range n).map fun i =>
          ({ type := kCowZeroOp, new_block := nb + i, source := 0,
             data_length := 0 } : CowOperationV3)).length) ≤ R := hmax'
    exact (WriteOperation_sync R ioe ior we wr _ _ [] [] rfl rfl hinv
      (Nat.le_trans (Nat.le_max_right _ _) h') hior).2
  | label l => exact SyncInv_EmitLabel R ioe ior we wr l hinv
  | seq n => exact SyncInv_EmitSequenceData R ioe ior we wr n hinv

/-- A whole replay preserves the estimation/real coupling when the estimation
session's final capacity stays within the real capacity. -/
theorem SyncInv_runCalls (R : Nat) (ioe ior : Nat → Bool) (hior : ∀ k, ior k = true) :
    ∀ (cs : List EmitCall) (we wr : CowWriterV3), SyncInv R we wr →
      (runCalls ioe we cs).header.op_count_max ≤ R →
      SyncInv R (runCalls ioe we cs) (runCalls ior wr cs) := by
  intro cs
  induction cs with
  | nil =>
    intro we wr hinv hmax
    exact hinv
  | cons cl cs ih =>
    intro we wr hinv hmax
    have hmax' : (runCalls ioe (runCall ioe we cl).2 cs).header.op_count_max ≤ R := hmax
    have hmono := EstInv_runCalls ioe cs (runCall ioe we cl).2
      (EstInv_runCall ioe we cl ⟨hinv.1, hinv.2.2.2.1⟩).1
    have hmaxc : (runCall ioe we cl).2.header.op_count_max ≤ R :=
      Nat.le_trans hmono.2 hmax'
    exact ih _ _ (SyncInv_runCall R ioe ior we wr cl hior hinv hmaxc) hmax'

/-! ## Claim theorems -/

/-- C2: in real (non-estimating) mode, a batch whose size would push the
committed operation count past `op_count_max` fails and the session state —
in particular the committed count and the payload cursor — is exactly what it
was before the call. -/
theorem real_mode_capacity_exceeded_fails (io : Nat → Bool) (w : CowWriterV3)
    (ops : List CowOperationV3) (data : List Nat) (hest : w.estimating = false)
    (hcap : w.header.op_count_max < w.header.op_count + ops.length) :
    WriteOperation io w ops data = (false, w) := by
  rw [WriteOperation, if_neg (by simp [hest]), if_pos hcap]

/-- Witness for C2: a concrete two-record batch against capacity 1 fails and
leaves the fresh session untouched. -/
theorem real_mode_capacity_exceeded_fails_witness :
    (freshWriter false 4096 1 true none).estimating = false ∧
    (freshWriter false 4096 1 true none).header.op_count_max <
      (freshWriter false 4096 1 true none).header.op_count +
        ([{ type := kCowZeroOp, new_block := 0, source := 0, data_length := 0 },
          { type := kCowZeroOp, new_block := 1, source := 0, data_length := 0 }] :
          List CowOperationV3).length ∧
    WriteOperation (fun _ => true) (freshWriter false 4096 1 true none)
      [{ type := kCowZeroOp, new_block := 0, source := 0, data_length := 0 },
       { type := kCowZeroOp, new_block := 1, source := 0, data_length := 0 }] [] =
      (false, freshWriter false 4096 1 true none) :=
  ⟨rfl, by decide,
    real_mode_capacity_exceeded_fails (fun _ => true) (freshWriter false 4096 1 true none)
      [{ type := kCowZeroOp, new_block := 0, source := 0, data_length := 0 },
       { type := kCowZeroOp, new_block := 1, source := 0, data_length := 0 }] []
      rfl (by decide)⟩

/-- Writes below the written slot range are invisible. -/
theorem writeAtTable_lt (t : Nat → CowOperationV3) (start : Nat) (ops : List CowOperationV3)
    (i : Nat) (h : i < start) : writeAtTable t start ops i = t i := by
  rw [writeAtTable, dif_neg]
  omega

/-- Writes at or above the end of the written slot range are invisible. -/
theorem writeAtTable_ge (t : Nat → CowOperationV3) (start : Nat) (ops : List CowOperationV3)
    (i : Nat) (h : start + ops.length ≤ i) : writeAtTable t start ops i = t i := by
  rw [writeAtTable, dif_neg]
  omega

/-- Slots inside the written range hold the written records. -/
theorem writeAtTable_get (t : Nat → CowOperationV3) (start : Nat) (ops : List CowOperationV3)
    (k : Nat) (hk : k < ops.length) :
    writeAtTable t start ops (start + k) = ops.get ⟨k, hk⟩ := by
  rw [writeAtTable, dif_pos]
  · have h : start + k - start = k := by omega
    congr 1
    exact Fin.ext h
  · exact ⟨Nat.le_add_right start k, by omega⟩

/-- Byte writes below the written range are invisible. -/
theorem writeAtData_lt (f : Nat → Nat) (start : Nat) (bytes : List Nat) (i : Nat)
    (h : i < start) : writeAtData f start bytes i = f i := by
  rw [writeAtData, dif_neg]
  omega

/-- Byte writes at or above the end of the written range are invisible. -/
theorem writeAtData_ge (f : Nat → Nat) (start : Nat) (bytes : List Nat) (i : Nat)
    (h : start + bytes.length ≤ i) : writeAtData f start bytes i = f i := by
  rw [writeAtData, dif_neg]
  omega

/-- Bytes inside the written range hold the written payload. -/
theorem writeAtData_get (f : Nat → Nat) (start : Nat) (bytes : List Nat) (b : Nat)
    (hb : b < bytes.length) : writeAtData f start bytes (start + b) = bytes.get ⟨b, hb⟩ := by
  rw [writeAtData, dif_pos]
  · have h : start + b - start = b := by omega
    congr 1
    exact Fin.ext h
  · exact ⟨Nat.le_add_right start b, by omega⟩

/-- Full characterization of a successful compressed per-block loop run in
real mode: the committed count advances one per block, the payload cursor by
the persisted byte lengths, table slots and payload bytes below the entry
state are untouched, and slot `k` holds the record of the k-th block with its
persisted bytes at the corresponding cursor position. -/
theorem EmitBlocksLoop_success_spec (io : Nat → Bool) (c : List Nat → List Nat) (ty : Nat)
    (s o off : Nat) (data : List Nat) (bs : Nat) (l : List Nat) :
    ∀ w : CowWriterV3, w.estimating = false →
    (EmitBlocksLoop io c ty s o off data bs l w).1 = true →
    (EmitBlocksLoop io c ty s o off data bs l w).2.header.op_count =
        w.header.op_count + l.length ∧
    (EmitBlocksLoop io c ty s o off data bs l w).2.next_data_pos =
        w.next_data_pos + (l.map fun i => (cOut c data bs i).length).sum ∧
    (EmitBlocksLoop io c ty s o off data bs l w).2.estimating = false ∧
    (∀ t, t < w.header.op_count →
      (EmitBlocksLoop io c ty s o off data bs l w).2.opTable t = w.opTable t) ∧
    (∀ a, a < w.next_data_pos →
      (EmitBlocksLoop io c ty s o off data bs l w).2.dataFile a = w.dataFile a) ∧
    (∀ k, k < l.length →
      (EmitBlocksLoop io c ty s o off data bs l w).2.opTable (w.header.op_count + k) =
        { type := ty, new_block := s + l.getD k 0,
          source := if ty = kCowXorOp then (o + l.getD k 0) * bs + off
            else w.next_data_pos +
              ((l.take k).map fun i => (cOut c data bs i).length).sum,
          data_length := cDlen c data bs (l.getD k 0) } ∧
      (∀ b, b < (cOut c data bs (l.getD k 0)).length →
        (EmitBlocksLoop io c ty s o off data bs l w).2.dataFile
            (w.next_data_pos +
              ((l.take k).map fun i => (cOut c data bs i).length).sum + b) =
          (cOut c data bs (l.getD k 0)).getD b 0)) := by
  induction l with
  | nil =>
    intro w hest hsucc
    refine ⟨by simp [EmitBlocksLoop], by simp [EmitBlocksLoop],
      by rw [EmitBlocksLoop]; exact hest, ?_, ?_, ?_⟩
    · intro t ht
      rw [EmitBlocksLoop]
    · intro a ha
      rw [EmitBlocksLoop]
    · intro k hk
      simp at hk
  | cons i rest ih =>
    intro w hest hsucc
    rw [EmitBlocksLoop] at hsucc ⊢
    have hwo := WriteOperation_real_of_success io w
      [{ type := ty, new_block := s + i,
         source := if ty = kCowXorOp then (o + i) * bs + off else w.next_data_pos,
         data_length := cDlen c data bs i }] (cOut c data bs i) hest
    by_cases hfail : (WriteOperation io w
        [{ type := ty, new_block := s + i,
           source := if ty = kCowXorOp then (o + i) * bs + off else w.next_data_pos,
           data_length := cDlen c data bs i }] (cOut c data bs i)).1 = false
    · rw [if_pos hfail] at hsucc
      exact Bool.noConfusion hsucc
    rw [if_neg hfail] at hsucc ⊢
    have hwo2 := hwo (by
      rcases h1 : (WriteOperation io w
        [{ type := ty, new_block := s + i,
           source := if ty = kCowXorOp then (o + i) * bs + off else w.next_data_pos,
           data_length := cDlen c data bs i }] (cOut c data bs i)).1 with _ | _
      · exact absurd h1 hfail
      · rfl)
    have hWopc : (WriteOperation io w
        [{ type := ty, new_block := s + i,
           source := if ty = kCowXorOp then (o + i) * bs + off else w.next_data_pos,
           data_length := cDlen c data bs i }] (cOut c data bs i)).2.header.op_count =
        w.header.op_count + 1 := by
      rw [hwo2]
      rfl
    have hWndp : (WriteOperation io w
        [{ type := ty, new_block := s + i,
           source := if ty = kCowXorOp then (o + i) * bs + off else w.next_data_pos,
           data_length := cDlen c data bs i }] (cOut c data bs i)).2.next_data_pos =
        w.next_data_pos + (cOut c data bs i).length := by rw [hwo2]
    have hWest : (WriteOperation io w
        [{ type := ty, new_block := s + i,
           source := if ty = kCowXorOp then (o + i) * bs + off else w.next_data_pos,
           data_length := cDlen c data bs i }] (cOut c data bs i)).2.estimating = false := by
      rw [hwo2]
      exact hest
    have hWtable : (WriteOperation io w
        [{ type := ty, new_block := s + i,
           source := if ty = kCowXorOp then (o + i) * bs + off else w.next_data_pos,
           data_length := cDlen c data bs i }] (cOut c data bs i)).2.opTable =
        writeAtTable w.opTable w.header.op_count
          [{ type := ty, new_block := s + i,
             source := if ty = kCowXorOp then (o + i) * bs + off else w.next_data_pos,
             data_length := cDlen c data bs i }] := by rw [hwo2]
    have hWdata : (WriteOperation io w
        [{ type := ty, new_block := s + i,
           source := if ty = kCowXorOp then (o + i) * bs + off else w.next_data_pos,
           data_length := cDlen c data bs i }] (cOut c data bs i)).2.dataFile =
        (if cOut c data bs i = [] then w.dataFile
          else writeAtData w.dataFile w.next_data_pos (cOut c data bs i)) := by
      rw [hwo2]
    obtain ⟨hopc, hndp, hestR, hpt, hpd, hent⟩ := ih _ hWest hsucc
    rw [hWopc] at hopc hpt hent
    rw [hWndp] at hndp hpd hent
    refine ⟨?_, ?_, hestR, ?_, ?_, ?_⟩
    · rw [hopc, List.length_cons]
      omega
    · rw [hndp, List.map_cons, List.sum_cons]
      omega
    · intro t ht
      rw [hpt t (by omega), hWtable, writeAtTable_lt _ _ _ t ht]
    · intro a ha
      rw [hpd a (by omega), hWdata]
      by_cases hout : cOut c data bs i = []
      · rw [if_pos hout]
      · rw [if_neg hout, writeAtData_lt _ _ _ a ha]
    · intro k hk
      cases k with
      | zero =>
        simp only [List.getD_cons_zero, List.take_zero, List.map_nil, List.sum_nil,
          Nat.add_zero]
        constructor
        · rw [hpt w.header.op_count (by omega), hWtable]
          have hg := writeAtTable_get w.opTable w.header.op_count
            [{ type := ty, new_block := s + i,
               source := if ty = kCowXorOp then (o + i) * bs + off else w.next_data_pos,
               data_length := cDlen c data bs i }] 0 (by simp)
          rw [Nat.add_zero] at hg
          rw [hg]
          rfl
        · intro b hb
          have hblen : 0 < (cOut c data bs i).length := by omega
          have hout : ¬(cOut c data bs i = []) := by
            intro h0
            rw [h0] at hblen
            simp at hblen
          rw [hpd (w.next_data_pos + b) (by omega), hWdata, if_neg hout,
            writeAtData_get w.dataFile w.next_data_pos _ b hb]
          rw [List.getD_eq_getElem _ _ hb, List.get_eq_getElem]
      | succ k' =>
        rw [List.length_cons] at hk
        have hk' : k' < rest.length := by omega
        obtain ⟨hrec, hbytes⟩ := hent k' hk'
        simp only [List.getD_cons_succ, List.take_succ_cons, List.map_cons, List.sum_cons]
        constructor
        · have hidx : w.header.op_count + (k' + 1) = w.header.op_count + 1 + k' := by omega
          rw [hidx, hrec]
          by_cases hxor : ty = kCowXorOp
          · rw [if_pos hxor, if_pos hxor]
          · rw [if_neg hxor, if_neg hxor]
            have hsrc : w.next_data_pos + (cOut c data bs i).length +
                ((rest.take k').map fun j => (cOut c data bs j).length).sum =
                w.next_data_pos + ((cOut c data bs i).length +
                  ((rest.take k').map fun j => (cOut c data bs j).length).sum) := by omega
            rw [hsrc]
        · intro b hb
          have haddr : w.next_data_pos + ((cOut c data bs i).length +
              ((rest.take k').map fun j => (cOut c data bs j).length).sum) + b =
              w.next_data_pos + (cOut c data bs i).length +
                ((rest.take k').map fun j => (cOut c data bs j).length).sum + b := by omega
          rw [haddr]
          exact hbytes b hb

/-- C3: on the compressed per-block path, if the whole batch reports failure
(which is how a failed individual block write surfaces), the committed
operation count and the payload cursor are rolled back to their values at
batch entry — no partial batch is visible. -/
theorem compressed_batch_failure_rolls_back (io : Nat → Bool) (w : CowWriterV3)
    (new_block_start : Nat) (data : List Nat) (old_block offset ty : Nat)
    (c : List Nat → List Nat) (hcn : w.compressionNone = false)
    (hc : w.compressor = some c)
    (hfail : (EmitBlocks io w new_block_start data old_block offset ty).1 = false) :
    ((EmitBlocks io w new_block_start data old_block offset ty).2).header.op_count =
      w.header.op_count ∧
    ((EmitBlocks io w new_block_start data old_block offset ty).2).next_data_pos =
      w.next_data_pos := by
  rw [EmitBlocks] at hfail ⊢
  rw [if_neg (by simp [hc]), if_neg (by simp [hcn])] at hfail ⊢
  by_cases hl : (EmitBlocksLoop io (w.compressor.getD fun b => b) ty new_block_start
      old_block offset data w.header.block_size
      (List.range (data.length / w.header.block_size)) w).1 = false
  · rw [if_pos hl]
    exact ⟨rfl, rfl⟩
  · rw [if_neg hl] at hfail
    exact absurd hfail hl

/-- C7: with compression enabled, each block of a successful
`EmitRawBlocks`/`EmitXorBlocks` batch is compressed independently: record `k`
has payload length equal to the compressed length exactly when the compressed
result is strictly smaller than the block size, and the block size exactly
otherwise, in which case the persisted bytes (`cOut`) are the raw block,
stored uncompressed; for non-XOR records the payload sits at the record's
source offset.  The decision is per block, so one request may mix compressed
and uncompressed records. -/
theorem compressed_per_block_policy (io : Nat → Bool) (w : CowWriterV3)
    (new_block_start : Nat) (data : List Nat) (old_block offset ty : Nat)
    (c : List Nat → List Nat) (hcn : w.compressionNone = false)
    (hc : w.compressor = some c) (hest : w.estimating = false)
    (hsucc : (EmitBlocks io w new_block_start data old_block offset ty).1 = true) :
    ∀ k, k < data.length / w.header.block_size →
      (((EmitBlocks io w new_block_start data old_block offset ty).2).opTable
          (w.header.op_count + k)).data_length =
        (if (c (blockOf data w.header.block_size k)).length < w.header.block_size
          then (c (blockOf data w.header.block_size k)).length
          else w.header.block_size) ∧
      (∀ b, b < (cOut c data w.header.block_size k).length →
        ((EmitBlocks io w new_block_start data old_block offset ty).2).dataFile
            (w.next_data_pos +
              ((List.range k).map fun i => (cOut c data w.header.block_size i).length).sum
              + b) =
          (cOut c data w.header.block_size k).getD b 0) ∧
      (ty = kCowXorOp ∨
        (((EmitBlocks io w new_block_start data old_block offset ty).2).opTable
            (w.header.op_count + k)).source =
          w.next_data_pos +
            ((List.range k).map fun i => (cOut c data w.header.block_size i).length).sum) := by
  have hcc : (w.compressor.getD fun b => b) = c := by
    rw [hc]
    rfl
  intro k hk
  rw [EmitBlocks, if_neg (by simp [hc]), if_neg (by simp [hcn]), hcc] at hsucc ⊢
  by_cases hl : (EmitBlocksLoop io c ty new_block_start old_block offset data
      w.header.block_size (List.range (data.length / w.header.block_size)) w).1 = false
  · rw [if_pos hl] at hsucc
    exact Bool.noConfusion hsucc
  rw [if_neg hl] at hsucc ⊢
  obtain ⟨hopc, hndp, hestR, hpt, hpd, hent⟩ :=
    EmitBlocksLoop_success_spec io c ty new_block_start old_block offset data
      w.header.block_size (List.range (data.length / w.header.block_size)) w hest hsucc
  obtain ⟨hrec, hbytes⟩ := hent k (by rw [List.length_range]; exact hk)
  have hgd : (List.range (data.length / w.header.block_size)).getD k 0 = k := by
    rw [List.getD_eq_getElem _ _ (by simpa using hk), List.getElem_range]
  have htk : (List.range (data.length / w.header.block_size)).take k = List.range k := by
    rw [List.take_range, Nat.min_eq_left (Nat.le_of_lt hk)]
  rw [hgd, htk] at hrec hbytes
  refine ⟨?_, ?_, ?_⟩
  · simp only [hrec]
    rw [cDlen]
  · intro b hb
    exact hbytes b hb
  · by_cases hxor : ty = kCowXorOp
    · exact Or.inl hxor
    · refine Or.inr ?_
      simp only [hrec]
      rw [if_neg hxor]

/-- Witness for C3: a two-block compressed batch whose second block's record
write fails; the call fails and both counters are back at their entry
values. -/
theorem compressed_batch_failure_rolls_back_witness :
    (freshWriter false 2 10 false (some witnessCompressor)).compressionNone = false ∧
    (freshWriter false 2 10 false (some witnessCompressor)).compressor =
      some witnessCompressor ∧
    (EmitBlocks witnessFailIO (freshWriter false 2 10 false (some witnessCompressor)) 0
      [1, 2, 3, 4] 0 0 kCowReplaceOp).1 = false ∧
    (((EmitBlocks witnessFailIO (freshWriter false 2 10 false (some witnessCompressor)) 0
        [1, 2, 3, 4] 0 0 kCowReplaceOp).2).header.op_count =
      (freshWriter false 2 10 false (some witnessCompressor)).header.op_count ∧
      ((EmitBlocks witnessFailIO (freshWriter false 2 10 false (some witnessCompressor)) 0
        [1, 2, 3, 4] 0 0 kCowReplaceOp).2).next_data_pos =
      (freshWriter false 2 10 false (some witnessCompressor)).next_data_pos) :=
  ⟨rfl, rfl, by decide,
    compressed_batch_failure_rolls_back witnessFailIO
      (freshWriter false 2 10 false (some witnessCompressor)) 0 [1, 2, 3, 4] 0 0
      kCowReplaceOp witnessCompressor rfl rfl (by decide)⟩

/-- C10: an uncompressed `EmitRawBlocks` or `EmitXorBlocks` call whose byte
size is not a multiple of the block size produces exactly `size / block_size`
records — slots past them are untouched, so the trailing partial block yields
no record — yet the payload cursor and `GetCowSize` advance by the full
requested size, covering remainder bytes no record references. -/
theorem emit_blocks_remainder_unreferenced (io : Nat → Bool) (w : CowWriterV3)
    (new_block_start : Nat) (data : List Nat) (old_block offset ty : Nat)
    (_hty : ty = kCowReplaceOp ∨ ty = kCowXorOp)
    (hcn : w.compressionNone = true) (hest : w.estimating = false)
    (hrem : data.length % w.header.block_size ≠ 0)
    (hsucc : (EmitBlocks io w new_block_start data old_block offset ty).1 = true) :
    ((EmitBlocks io w new_block_start data old_block offset ty).2).header.op_count =
      w.header.op_count + data.length / w.header.block_size ∧
    ((EmitBlocks io w new_block_start data old_block offset ty).2).next_data_pos =
      w.next_data_pos + data.length ∧
    GetCowSize (EmitBlocks io w new_block_start data old_block offset ty).2 =
      GetCowSize w + data.length ∧
    data.length / w.header.block_size * w.header.block_size < data.length ∧
    (∀ k, k < data.length / w.header.block_size →
      ((EmitBlocks io w new_block_start data old_block offset ty).2).opTable
          (w.header.op_count + k) =
        uncompressedOp ty new_block_start old_block offset w.next_data_pos
          w.header.block_size k) ∧
    (∀ j, ((EmitBlocks io w new_block_start data old_block offset ty).2).opTable
        (w.header.op_count + data.length / w.header.block_size + j) =
      w.opTable (w.header.op_count + data.length / w.header.block_size + j)) := by
  rw [EmitBlocks, if_neg (by simp [hcn]), if_pos hcn] at hsucc ⊢
  rw [WriteOperation_real_of_success io w _ data hest hsucc]
  have hlen : ((List.range (data.length / w.header.block_size)).map
      (uncompressedOp ty new_block_start old_block offset w.next_data_pos
        w.header.block_size)).length = data.length / w.header.block_size := by
    rw [List.length_map, List.length_range]
  have hdm := Nat.div_add_mod data.length w.header.block_size
  rw [Nat.mul_comm] at hdm
  refine ⟨by rw [hlen], rfl, by rw [GetCowSize, GetCowSize], ?_, ?_, ?_⟩
  · have hmle : data.length % w.header.block_size ≤ data.length := Nat.mod_le _ _
    omega
  · intro k hk
    show writeAtTable w.opTable w.header.op_count _ (w.header.op_count + k) = _
    rw [writeAtTable_get w.opTable w.header.op_count _ k (by rw [hlen]; exact hk)]
    have h1 : ∀ hh, ((List.range (data.length / w.header.block_size)).map
        (uncompressedOp ty new_block_start old_block offset w.next_data_pos
          w.header.block_size)).get ⟨k, hh⟩ =
        uncompressedOp ty new_block_start old_block offset w.next_data_pos
          w.header.block_size k := by
      intro hh
      rw [List.get_eq_getElem, List.getElem_map, List.getElem_range]
    exact h1 _
  · intro j
    show writeAtTable w.opTable w.header.op_count _ _ = _
    rw [writeAtTable_ge]
    rw [hlen]
    omega

/-- Witness for C7: a two-block batch where the first block compresses (1 <
2) and the second does not (3 >= 2), mixing compressed and uncompressed
records in one request. -/
theorem compressed_per_block_policy_witness :
    compressedWitnessWriter.compressionNone = false ∧
    compressedWitnessWriter.compressor = some witnessCompressor ∧
    compressedWitnessWriter.estimating = false ∧
    (EmitBlocks (fun _ => true) compressedWitnessWriter 0 [1, 2, 3, 4] 0 0
      kCowReplaceOp).1 = true ∧
    (∀ k, k < ([1, 2, 3, 4] : List Nat).length / compressedWitnessWriter.header.block_size →
      (((EmitBlocks (fun _ => true) compressedWitnessWriter 0 [1, 2, 3, 4] 0 0
          kCowReplaceOp).2).opTable
          (compressedWitnessWriter.header.op_count + k)).data_length =
        (if (witnessCompressor (blockOf [1, 2, 3, 4]
              compressedWitnessWriter.header.block_size k)).length <
            compressedWitnessWriter.header.block_size
          then (witnessCompressor (blockOf [1, 2, 3, 4]
            compressedWitnessWriter.header.block_size k)).length
          else compressedWitnessWriter.header.block_size) ∧
      (∀ b, b < (cOut witnessCompressor [1, 2, 3, 4]
          compressedWitnessWriter.header.block_size k).length →
        ((EmitBlocks (fun _ => true) compressedWitnessWriter 0 [1, 2, 3, 4] 0 0
            kCowReplaceOp).2).dataFile
            (compressedWitnessWriter.next_data_pos +
              ((List.range k).map fun i => (cOut witnessCompressor [1, 2, 3, 4]
                compressedWitnessWriter.header.block_size i).length).sum + b) =
          (cOut witnessCompressor [1, 2, 3, 4]
            compressedWitnessWriter.header.block_size k).getD b 0) ∧
      (kCowReplaceOp = kCowXorOp ∨
        (((EmitBlocks (fun _ => true) compressedWitnessWriter 0 [1, 2, 3, 4] 0 0
            kCowReplaceOp).2).opTable
            (compressedWitnessWriter.header.op_count + k)).source =
          compressedWitnessWriter.next_data_pos +
            ((List.range k).map fun i => (cOut witnessCompressor [1, 2, 3, 4]
              compressedWitnessWriter.header.block_size i).length).sum)) :=
  ⟨rfl, rfl, rfl, by decide,
    compressed_per_block_policy (fun _ => true) compressedWitnessWriter 0 [1, 2, 3, 4]
      0 0 kCowReplaceOp witnessCompressor rfl rfl rfl (by decide)⟩

/-- Witness for C10: five bytes against block size 2 — two records and a
full five-byte payload advance, exercised on both the overwrite
(`EmitRawBlocks`) and the XOR (`EmitXorBlocks`) entry points. -/
theorem emit_blocks_remainder_unreferenced_witness :
    ((kCowReplaceOp = kCowReplaceOp ∨ kCowReplaceOp = kCowXorOp) ∧
      rawWitnessWriter.compressionNone = true ∧
      rawWitnessWriter.estimating = false ∧
      ([1, 2, 3, 4, 5] : List Nat).length % rawWitnessWriter.header.block_size ≠ 0 ∧
      (EmitBlocks (fun _ => true) rawWitnessWriter 0 [1, 2, 3, 4, 5] 0 0
        kCowReplaceOp).1 = true ∧
      (((EmitBlocks (fun _ => true) rawWitnessWriter 0 [1, 2, 3, 4, 5] 0 0
          kCowReplaceOp).2).header.op_count =
        rawWitnessWriter.header.op_count +
          ([1, 2, 3, 4, 5] : List Nat).length / rawWitnessWriter.header.block_size ∧
      ((EmitBlocks (fun _ => true) rawWitnessWriter 0 [1, 2, 3, 4, 5] 0 0
          kCowReplaceOp).2).next_data_pos =
        rawWitnessWriter.next_data_pos + ([1, 2, 3, 4, 5] : List Nat).length ∧
      GetCowSize (EmitBlocks (fun _ => true) rawWitnessWriter 0 [1, 2, 3, 4, 5] 0 0
          kCowReplaceOp).2 =
        GetCowSize rawWitnessWriter + ([1, 2, 3, 4, 5] : List Nat).length ∧
      ([1, 2, 3, 4, 5] : List Nat).length / rawWitnessWriter.header.block_size *
          rawWitnessWriter.header.block_size < ([1, 2, 3, 4, 5] : List Nat).length ∧
      (∀ k, k < ([1, 2, 3, 4, 5] : List Nat).length /
          rawWitnessWriter.header.block_size →
        ((EmitBlocks (fun _ => true) rawWitnessWriter 0 [1, 2, 3, 4, 5] 0 0
            kCowReplaceOp).2).opTable (rawWitnessWriter.header.op_count + k) =
          uncompressedOp kCowReplaceOp 0 0 0 rawWitnessWriter.next_data_pos
            rawWitnessWriter.header.block_size k) ∧
      (∀ j, ((EmitBlocks (fun _ => true) rawWitnessWriter 0 [1, 2, 3, 4, 5] 0 0
            kCowReplaceOp).2).opTable
          (rawWitnessWriter.header.op_count +
            ([1, 2, 3, 4, 5] : List Nat).length / rawWitnessWriter.header.block_size +
            j) =
        rawWitnessWriter.opTable
          (rawWitnessWriter.header.op_count +
            ([1, 2, 3, 4, 5] : List Nat).length / rawWitnessWriter.header.block_size +
            j)))) ∧
    ((kCowXorOp = kCowReplaceOp ∨ kCowXorOp = kCowXorOp) ∧
      (EmitBlocks (fun _ => true) rawWitnessWriter 0 [1, 2, 3, 4, 5] 7 1
        kCowXorOp).1 = true ∧
      (((EmitBlocks (fun _ => true) rawWitnessWriter 0 [1, 2, 3, 4, 5] 7 1
          kCowXorOp).2).header.op_count =
        rawWitnessWriter.header.op_count +
          ([1, 2, 3, 4, 5] : List Nat).length / rawWitnessWriter.header.block_size ∧
      ((EmitBlocks (fun _ => true) rawWitnessWriter 0 [1, 2, 3, 4, 5] 7 1
          kCowXorOp).2).next_data_pos =
        rawWitnessWriter.next_data_pos + ([1, 2, 3, 4, 5] : List Nat).length ∧
      GetCowSize (EmitBlocks (fun _ => true) rawWitnessWriter 0 [1, 2, 3, 4, 5] 7 1
          kCowXorOp).2 =
        GetCowSize rawWitnessWriter + ([1, 2, 3, 4, 5] : List Nat).length ∧
      ([1, 2, 3, 4, 5] : List Nat).length / rawWitnessWriter.header.block_size *
          rawWitnessWriter.header.block_size < ([1, 2, 3, 4, 5] : List Nat).length ∧
      (∀ k, k < ([1, 2, 3, 4, 5] : List Nat).length /
          rawWitnessWriter.header.block_size →
        ((EmitBlocks (fun _ => true) rawWitnessWriter 0 [1, 2, 3, 4, 5] 7 1
            kCowXorOp).2).opTable (rawWitnessWriter.header.op_count + k) =
          uncompressedOp kCowXorOp 0 7 1 rawWitnessWriter.next_data_pos
            rawWitnessWriter.header.block_size k) ∧
      (∀ j, ((EmitBlocks (fun _ => true) rawWitnessWriter 0 [1, 2, 3, 4, 5] 7 1
            kCowXorOp).2).opTable
          (rawWitnessWriter.header.op_count +
            ([1, 2, 3, 4, 5] : List Nat).length / rawWitnessWriter.header.block_size +
            j) =
        rawWitnessWriter.opTable
          (rawWitnessWriter.header.op_count +
            ([1, 2, 3, 4, 5] : List Nat).length / rawWitnessWriter.header.block_size +
            j)))) :=
  ⟨⟨Or.inl rfl, rfl, rfl, by decide, by decide,
    emit_blocks_remainder_unreferenced (fun _ => true) rawWitnessWriter 0
      [1, 2, 3, 4, 5] 0 0 kCowReplaceOp (Or.inl rfl) rfl rfl (by decide) (by decide)⟩,
    ⟨Or.inr rfl, by decide,
    emit_blocks_remainder_unreferenced (fun _ => true) rawWitnessWriter 0
      [1, 2, 3, 4, 5] 7 1 kCowXorOp (Or.inr rfl) rfl rfl (by decide) (by decide)⟩⟩

/-- C1 counterexample: one EmitZeroBlocks(0, 1) replayed on a fresh
estimation session (initial capacity 0, final committed count 1) and on a
fresh real session with `op_count_max` = 2, which is at least the estimated
operation count; every real-mode call succeeds and the committed counts
agree, yet `GetCowSize()` differs, because the real session's payload region
starts after a 2-record table while the estimation session accounted for only
1 record. -/
theorem estimation_real_size_counterexample :
    (runCalls (fun _ => true) (freshWriter true 4096 0 true none)
      [EmitCall.zero 0 1]).header.op_count = 1 ∧
    2 ≥ 1 ∧
    (runCall (fun _ => true) (freshWriter false 4096 2 true none) (EmitCall.zero 0 1)).1 =
      true ∧
    (runCalls (fun _ => true) (freshWriter false 4096 2 true none)
      [EmitCall.zero 0 1]).header.op_count =
      (runCalls (fun _ => true) (freshWriter true 4096 0 true none)
        [EmitCall.zero 0 1]).header.op_count ∧
    GetCowSize (runCalls (fun _ => true) (freshWriter false 4096 2 true none)
        [EmitCall.zero 0 1]) ≠
      GetCowSize (runCalls (fun _ => true) (freshWriter true 4096 0 true none)
        [EmitCall.zero 0 1]) := by
  refine ⟨rfl, by decide, rfl, rfl, ?_⟩
  decide

/-- C1 (amended): replaying the same Emit* sequence on a fresh estimation
session and on a fresh real session whose `op_count_max` is set exactly to
the estimation session's final `op_count_max` (equal to the estimated
operation count whenever it exceeds the estimation session's initial
capacity), with every real-mode physical write succeeding, yields the same
final `GetCowSize()` and the same final committed operation count. -/
theorem estimation_real_replay_equiv (cs : List EmitCall) (bs E0 : Nat) (cn : Bool)
    (comp : Option (List Nat → List Nat)) (ioe ior : Nat → Bool)
    (hior : ∀ k, ior k = true) (R : Nat)
    (hR : R = (runCalls ioe (freshWriter true bs E0 cn comp) cs).header.op_count_max) :
    GetCowSize (runCalls ior (freshWriter false bs R cn comp) cs) =
      GetCowSize (runCalls ioe (freshWriter true bs E0 cn comp) cs) ∧
    (runCalls ior (freshWriter false bs R cn comp) cs).header.op_count =
      (runCalls ioe (freshWriter true bs E0 cn comp) cs).header.op_count := by
  have hE0 : E0 ≤ R := by
    have h := (EstInv_runCalls ioe cs (freshWriter true bs E0 cn comp)
      ⟨rfl, Nat.zero_le _⟩).2
    rw [hR]
    exact h
  have hinv0 : SyncInv R (freshWriter true bs E0 cn comp)
      (freshWriter false bs R cn comp) := by
    refine ⟨rfl, rfl, rfl, Nat.zero_le _, hE0, rfl, ?_, rfl, rfl, rfl⟩
    simp only [freshWriter, GetDataOffset]
    simp only [kOpSize, kHeaderSize, kResumePointSize, kSequenceTableSize,
      kNumResumePoints]
    omega
  have hfin := SyncInv_runCalls R ioe ior hior cs (freshWriter true bs E0 cn comp)
    (freshWriter false bs R cn comp) hinv0 (by rw [hR])
  obtain ⟨f1, f2, f3, f4, f5, f6, f7, f8, f9, f10⟩ := hfin
  constructor
  · rw [GetCowSize, GetCowSize, f7, hR, Nat.sub_self, Nat.zero_mul, Nat.add_zero]
  · exact f3.symm

/-- Witness for C1 (amended): one zero-fill block estimated from capacity 0
(estimate: 1 operation), then replayed for real with capacity exactly 1. -/
theorem estimation_real_replay_equiv_witness :
    (∀ k, (fun _ => true : Nat → Bool) k = true) ∧
    (1 = (runCalls (fun _ => true) (freshWriter true 4096 0 true none)
      [EmitCall.zero 0 1]).header.op_count_max) ∧
    (GetCowSize (runCalls (fun _ => true) (freshWriter false 4096 1 true none)
        [EmitCall.zero 0 1]) =
      GetCowSize (runCalls (fun _ => true) (freshWriter true 4096 0 true none)
        [EmitCall.zero 0 1]) ∧
    (runCalls (fun _ => true) (freshWriter false 4096 1 true none)
        [EmitCall.zero 0 1]).header.op_count =
      (runCalls (fun _ => true) (freshWriter true 4096 0 true none)
        [EmitCall.zero 0 1]).header.op_count) :=
  ⟨fun _ => rfl, by decide,
    estimation_real_replay_equiv [EmitCall.zero 0 1] 4096 0 true none
      (fun _ => true) (fun _ => true) (fun _ => rfl) 1 (by decide)⟩

/-- C4: `EmitLabel(L)` first removes every resume point whose label is ≥ L,
then appends `(L, current committed operation count)` (evicting from the
front if over capacity); consequently emitting the same label twice in
succession leaves the resume-point count unchanged — the second call replaces
the entry for L instead of duplicating it. -/
theorem emitLabel_prune_append_idempotent (io io' : Nat → Bool) (w : CowWriterV3) (L : Nat) :
    ((EmitLabel io w L).2).resume_points =
      evictFront w.header.resume_point_max
        ((w.resume_points.filter fun p => decide (p.label < L)) ++
          [{ label := L, op_index := w.header.op_count }]) ∧
    ((EmitLabel io' (EmitLabel io w L).2 L).2).resume_points.length =
      ((EmitLabel io w L).2).resume_points.length := by
  constructor
  · obtain ⟨k, hk⟩ := EmitLabel_state io w L
    rw [hk]
  · rw [emitLabel_twice_points]

/-- C5: after any `EmitLabel` call the resume-point count is at most
`resume_point_max`, and when the list is full and every existing label is
below the new one (distinct increasing labels), the oldest (front) entry is
the one evicted. -/
theorem emitLabel_bound_oldest_evicted (io : Nat → Bool) (w : CowWriterV3) (L : Nat)
    (hmax : 1 ≤ w.header.resume_point_max) :
    ((EmitLabel io w L).2).resume_points.length ≤ w.header.resume_point_max ∧
    ((∀ p ∈ w.resume_points, p.label < L) →
      w.resume_points.length = w.header.resume_point_max →
      ((EmitLabel io w L).2).resume_points =
        w.resume_points.tail ++ [{ label := L, op_index := w.header.op_count }]) := by
  obtain ⟨k, hk⟩ := EmitLabel_state io w L
  rw [hk]
  simp only
  constructor
  · exact evictFront_length_le _ _
  · intro hall hfull
    have hfilter : (w.resume_points.filter fun p => decide (p.label < L)) = w.resume_points :=
      List.filter_eq_self.mpr fun a ha => by simpa using hall a ha
    rw [hfilter]
    rw [evictFront_of_succ _ _ (by rw [List.length_append, hfull]; rfl)]
    cases hw : w.resume_points with
    | nil =>
      rw [hw] at hfull
      simp at hfull
      omega
    | cons q rest =>
      rfl

/-- Witness for C5: with capacity 4 and a full list of increasing labels,
emitting label 9 keeps the count at 4 and drops the oldest entry (label 1). -/
theorem emitLabel_bound_oldest_evicted_witness :
    1 ≤ labelWitnessWriter.header.resume_point_max ∧
    (((EmitLabel (fun _ => true) labelWitnessWriter 9).2).resume_points.length ≤
        labelWitnessWriter.header.resume_point_max ∧
      ((∀ p ∈ labelWitnessWriter.resume_points, p.label < 9) →
        labelWitnessWriter.resume_points.length = labelWitnessWriter.header.resume_point_max →
        ((EmitLabel (fun _ => true) labelWitnessWriter 9).2).resume_points =
          labelWitnessWriter.resume_points.tail ++ [{ label := 9, op_index := labelWitnessWriter.header.op_count }])) :=
  ⟨by decide, emitLabel_bound_oldest_evicted (fun _ => true) labelWitnessWriter 9 (by decide)⟩

/-- Folding payload lengths over the recovered operations is their sum. -/
theorem foldl_add_data_length (ops : List CowOperationV3) (a : Nat) :
    ops.foldl (fun acc op => acc + op.data_length) a =
      a + (ops.map CowOperationV3.data_length).sum := by
  induction ops generalizing a with
  | nil => simp
  | cons op rest ih => simp [ih, Nat.add_assoc]

/-- C6: resuming at a previously emitted label adopts the recovered operation
count and reconstructs the payload cursor as the payload-region start derived
from the on-disk header plus the sum of the recovered operations' payload
lengths. -/
theorem openForAppend_cursor_and_count (h : CowHeaderV3) (ops : List CowOperationV3)
    (rps : List ResumePoint) (cn : Bool) (comp : Option (List Nat → List Nat)) :
    (OpenForAppend h ops rps cn comp).next_data_pos =
      GetDataOffset h + (ops.map CowOperationV3.data_length).sum ∧
    (OpenForAppend h ops rps cn comp).header.op_count = ops.length := by
  refine ⟨?_, rfl⟩
  show ops.foldl (fun acc op => acc + op.data_length) (GetDataOffset h) = _
  exact foldl_add_data_length ops (GetDataOffset h)

/-- C8 counterexample: when the positioned write of the sequence table fails,
`EmitSequenceData` reports failure, yet the header's sequence-data entry
count has already been changed (0 before the call, 3 after), contradicting
the claim that the whole session state is left intact. -/
theorem emitSequenceData_mutates_count_on_failure :
    (EmitSequenceData (fun _ => false) (freshWriter false 4096 8 true none) 3).1 = false ∧
    ¬((EmitSequenceData (fun _ => false) (freshWriter false 4096 8 true none)
        3).2.header.sequence_data_count =
      (freshWriter false 4096 8 true none).header.sequence_data_count) := by
  constructor
  · rfl
  · decide

/-- C8 (amended): if `EmitSequenceData`'s positioned write fails the call
reports failure and the committed operation count, payload cursor and resume
points are unchanged, but the header's sequence-data entry count has already
been set to the new value — it is updated before the write is attempted. -/
theorem emitSequenceData_failure_state (io : Nat → Bool) (w : CowWriterV3) (num_ops : Nat)
    (hio : io w.ioCount = false) :
    (EmitSequenceData io w num_ops).1 = false ∧
    (EmitSequenceData io w num_ops).2.header.op_count = w.header.op_count ∧
    (EmitSequenceData io w num_ops).2.next_data_pos = w.next_data_pos ∧
    (EmitSequenceData io w num_ops).2.resume_points = w.resume_points ∧
    (EmitSequenceData io w num_ops).2.header.sequence_data_count = num_ops := by
  rw [EmitSequenceData]
  exact ⟨hio, rfl, rfl, rfl, rfl⟩

/-- Witness for C8 (amended): a concrete failing write. -/
theorem emitSequenceData_failure_state_witness :
    ((fun _ => false : Nat → Bool) (freshWriter false 4096 8 true none).ioCount = false) ∧
    ((EmitSequenceData (fun _ => false) (freshWriter false 4096 8 true none) 3).1 = false ∧
      (EmitSequenceData (fun _ => false) (freshWriter false 4096 8 true none)
          3).2.header.op_count = (freshWriter false 4096 8 true none).header.op_count ∧
      (EmitSequenceData (fun _ => false) (freshWriter false 4096 8 true none)
          3).2.next_data_pos = (freshWriter false 4096 8 true none).next_data_pos ∧
      (EmitSequenceData (fun _ => false) (freshWriter false 4096 8 true none)
          3).2.resume_points = (freshWriter false 4096 8 true none).resume_points ∧
      (EmitSequenceData (fun _ => false) (freshWriter false 4096 8 true none)
          3).2.header.sequence_data_count = 3) :=
  ⟨rfl, emitSequenceData_failure_state (fun _ => false)
    (freshWriter false 4096 8 true none) 3 rfl⟩

/-- C9: in estimation mode `WriteOperation` never fails — it returns success,
advances the committed count by the batch size and the payload cursor by the
payload size, and when the batch exceeds the current capacity it grows
`op_count_max` to the new count, shifting the payload cursor forward by the
added table bytes. -/
theorem estimating_write_never_fails (io : Nat → Bool) (w : CowWriterV3)
    (ops : List CowOperationV3) (data : List Nat) (hest : w.estimating = true) :
    (WriteOperation io w ops data).1 = true ∧
    (WriteOperation io w ops data).2.header.op_count = w.header.op_count + ops.length ∧
    (WriteOperation io w ops data).2.header.op_count_max =
      Nat.max w.header.op_count_max (w.header.op_count + ops.length) ∧
    (WriteOperation io w ops data).2.next_data_pos = w.next_data_pos +
      (w.header.op_count + ops.length - w.header.op_count_max) * kOpSize + data.length := by
  rw [WriteOperation_est io w ops data hest]
  exact ⟨rfl, rfl, rfl, rfl⟩

/-- Witness for C9: a concrete estimation-mode batch of two records with five
payload bytes, growing capacity from 0 to 2. -/
theorem estimating_write_never_fails_witness :
    (freshWriter true 4096 0 true none).estimating = true ∧
    ((WriteOperation (fun _ => true) (freshWriter true 4096 0 true none)
        [{ type := kCowReplaceOp, new_block := 0, source := 0, data_length := 0 },
         { type := kCowReplaceOp, new_block := 1, source := 0, data_length := 0 }]
        [1, 2, 3, 4, 5]).1 = true ∧
      (WriteOperation (fun _ => true) (freshWriter true 4096 0 true none)
        [{ type := kCowReplaceOp, new_block := 0, source := 0, data_length := 0 },
         { type := kCowReplaceOp, new_block := 1, source := 0, data_length := 0 }]
        [1, 2, 3, 4, 5]).2.header.op_count =
        (freshWriter true 4096 0 true none).header.op_count + 2 ∧
      (WriteOperation (fun _ => true) (freshWriter true 4096 0 true none)
        [{ type := kCowReplaceOp, new_block := 0, source := 0, data_length := 0 },
         { type := kCowReplaceOp, new_block := 1, source := 0, data_length := 0 }]
        [1, 2, 3, 4, 5]).2.header.op_count_max =
        Nat.max (freshWriter true 4096 0 true none).header.op_count_max
          ((freshWriter true 4096 0 true none).header.op_count + 2) ∧
      (WriteOperation (fun _ => true) (freshWriter true 4096 0 true none)
        [{ type := kCowReplaceOp, new_block := 0, source := 0, data_length := 0 },
         { type := kCowReplaceOp, new_block := 1, source := 0, data_length := 0 }]
        [1, 2, 3, 4, 5]).2.next_data_pos =
        (freshWriter true 4096 0 true none).next_data_pos +
          ((freshWriter true 4096 0 true none).header.op_count + 2 -
            (freshWriter true 4096 0 true none).header.op_count_max) * kOpSize + 5) :=
  ⟨rfl, estimating_write_never_fails (fun _ => true) (freshWriter true 4096 0 true none)
    [{ type := kCowReplaceOp, new_block := 0, source := 0, data_length := 0 },
     { type := kCowReplaceOp, new_block := 1, source := 0, data_length := 0 }]
    [1, 2, 3, 4, 5] rfl⟩

end CowV3
